import Mathlib

/-!
Verification development for the phone-automation agent repository.

The embedding models text as `List Char`.  Python strings become char lists,
Python `None`-able values become `Option`, and Python exceptions become
`Except (List Char)` values (the payload is the exception text, matching
`str(e)` in the source).  Whitespace is modelled by the ASCII whitespace
characters recognised by Python's `\s` class and `str.strip` on ASCII input.

Part 1 embeds `phone_agent/model/client.py`: tag normalization
(`_normalize_xmlish_tags`), substring extraction (`_extract_between`),
final-response parsing (`_parse_response`), the streaming preview loop of
`request`, and the stream cleaner (`_clean_stream_content`).
-/

namespace Client

/-- Python whitespace predicate restricted to the ASCII characters matched by
the regex class used in `client.py` (space, tab, newline, carriage return,
vertical tab, form feed). -/
def isPyWs (c : Char) : Bool :=
  c == ' ' || c == '\t' || c == '\n' || c == '\r' ||
  c == Char.ofNat 11 || c == Char.ofNat 12

/-- Remove every whitespace character; this is `re.sub(r"\s+", "", s)`
applied to a whole tag match inside `_normalize_xmlish_tags`. -/
def stripWsAll (l : List Char) : List Char := l.filter (fun c => !(isPyWs c))

/-- Scanner for the regex `<[^>]+>` used by `_normalize_xmlish_tags`
(client.py lines 14-18).  The second argument is `none` outside a candidate
tag and `some acc` when a match attempt started at a `<` and `acc` holds the
characters consumed after it.  A `>` with a nonempty body completes a match,
whose whitespace is removed; a `>` immediately after `<` fails the `[^>]+`
requirement and the two characters are kept verbatim; an unclosed `<` at end
of input matches nothing and is kept verbatim. -/
def normGo : List Char → Option (List Char) → List Char
  | [], none => []
  | [], some acc => '<' :: acc
  | c :: rest, none =>
    if c = '<' then normGo rest (some [])
    else c :: normGo rest none
  | c :: rest, some acc =>
    if c = '>' then
      (if acc = [] then '<' :: '>' :: []
       else stripWsAll ('<' :: (acc ++ ['>']))) ++ normGo rest none
    else normGo rest (some (acc ++ [c]))

/-- `_normalize_xmlish_tags` (client.py lines 15-18): strip whitespace
strictly inside each `<...>` delimiter pair. -/
def normalize_xmlish_tags (t : List Char) : List Char := normGo t none

/-- Python `text.find(pat)`: index of the first occurrence of `pat` in `t`,
or `none` where Python returns `-1`. -/
def findSub (pat : List Char) : List Char → Option Nat
  | [] => if pat.isPrefixOf ([] : List Char) then some 0 else none
  | c :: rest =>
    if pat.isPrefixOf (c :: rest) then some 0
    else (findSub pat rest).map (· + 1)

/-- `_extract_between` (client.py lines 20-28): substring after the first
occurrence of `a`, cut at the next occurrence of `b`; everything after `a`
when `b` is absent; empty when `a` is absent. -/
def extract_between (t a b : List Char) : List Char :=
  match findSub a t with
  | none => []
  | some i =>
    let rest := t.drop (i + a.length)
    match findSub b rest with
    | none => rest
    | some j => rest.take j

/-- Python `text.split(pat, 1)` when `pat` occurs: the pair (before, after);
`none` when `pat` does not occur. -/
def splitOnce (pat t : List Char) : Option (List Char × List Char) :=
  match findSub pat t with
  | none => none
  | some i => some (t.take i, t.drop (i + pat.length))

/-- Python `str.strip()` on ASCII whitespace. -/
def pyStrip (l : List Char) : List Char :=
  ((l.dropWhile isPyWs).reverse.dropWhile isPyWs).reverse

/-- Worker for `re.sub(r"\s+", " ", s)`; the flag records whether the
previous character belonged to a whitespace run already replaced. -/
def collapseGo : List Char → Bool → List Char
  | [], _ => []
  | c :: rest, prevWs =>
    if isPyWs c then
      (if prevWs then collapseGo rest true else ' ' :: collapseGo rest true)
    else c :: collapseGo rest false

/-- `re.sub(r"\s+", " ", s)`: collapse each whitespace run to one space. -/
def collapse_ws (l : List Char) : List Char := collapseGo l false

/-- The `finish(message=` action marker (client.py line 127). -/
def finMark : List Char := "finish(message=".toList

/-- The `do(action=` action marker (client.py line 127). -/
def doMark : List Char := "do(action=".toList

/-- Opening `<tool_call>` tag. -/
def tcOpenL : List Char := "<tool_call>".toList

/-- Closing `</tool_call>` tag. -/
def tcCloseL : List Char := "</tool_call>".toList

/-- Opening `<think_text>` tag. -/
def thinkOpenL : List Char := "<think_text>".toList

/-- Closing `</think_text>` tag. -/
def thinkCloseL : List Char := "</think_text>".toList

/-- `_parse_response` (client.py lines 214-245).  Tag path: normalize tags,
then if `<tool_call>` occurs, thinking is the stripped and
whitespace-collapsed `<think_text>` extraction and action is the stripped
`<tool_call>` extraction, falling back to everything after `<tool_call>`
when that strip is empty.  Legacy path: split on `finish(message=` first,
then on `do(action=`, both against the unnormalized content; final
fallback returns empty thinking and the stripped content. -/
def parse_response (content : List Char) : List Char × List Char :=
  let c := normalize_xmlish_tags content
  match findSub tcOpenL c with
  | some pos =>
    let thinking := pyStrip (extract_between c thinkOpenL thinkCloseL)
    let thinking2 := pyStrip (collapse_ws thinking)
    let action := pyStrip (extract_between c tcOpenL tcCloseL)
    let action2 :=
      if action = [] then pyStrip (c.drop (pos + tcOpenL.length)) else action
    (thinking2, action2)
  | none =>
    match splitOnce finMark content with
    | some pr => (pyStrip pr.1, finMark ++ pr.2)
    | none =>
      match splitOnce doMark content with
      | some pr => (pyStrip pr.1, doMark ++ pr.2)
      | none => ([], pyStrip content)

/-- Accumulation of `raw_content += content` over the streamed fragments
(client.py line 135). -/
def concatL (frags : List (List Char)) : List Char :=
  frags.foldl (fun a b => a ++ b) []

/-- End-of-stream parse performed by `request` (client.py line 189): the
final `(thinking, action)` pair is computed from the accumulated raw
content only. -/
def parse_stream (frags : List (List Char)) : List Char × List Char :=
  parse_response (concatL frags)

/-- Worker for `_clean_stream_content` (client.py lines 69-97): drop
characters between `<` and `>` using the persistent `_in_tag` flag, keep the
rest.  The `_tag_buffer` attribute of the source is never read for output
and is omitted. -/
def cleanGo : Bool → List Char → Bool × List Char
  | inTag, [] => (inTag, [])
  | inTag, c :: rest =>
    if c = '<' ∧ inTag = false then cleanGo true rest
    else if c = '>' ∧ inTag = true then cleanGo false rest
    else if inTag = true then cleanGo inTag rest
    else
      let p := cleanGo inTag rest
      (p.1, c :: p.2)

/-- `_clean_stream_content`: tag-stripped text with whitespace runs
collapsed and ends stripped, together with the updated `_in_tag` flag. -/
def clean_stream_content (inTag : Bool) (text : List Char) : Bool × List Char :=
  let p := cleanGo inTag text
  (p.1, pyStrip (collapse_ws p.2))

/-- The two action markers in the priority order of `action_markers`
(client.py line 127). -/
def actionMarkers : List (List Char) := [finMark, doMark]

/-- The marker detection of the streaming loop (client.py lines 148-163):
the first marker in list order that occurs in the buffer, with the index of
its first occurrence (`buffer.split(marker, 1)[0]` keeps everything before
that index). -/
def detect_marker (buf : List Char) : Option (List Char × Nat) :=
  match findSub finMark buf with
  | some i => some (finMark, i)
  | none =>
    match findSub doMark buf with
    | some i => some (doMark, i)
    | none => none

/-- The partial-marker lookahead of the streaming loop (client.py lines
169-176): does the buffer end with a nonempty strict prefix of either
marker? -/
def is_potential_marker (buf : List Char) : Bool :=
  actionMarkers.any fun m =>
    (List.range m.length).any fun i => decide (0 < i) && (m.take i).isSuffixOf buf

/-- State of one streaming exchange inside `request` (client.py lines
125-183).  `flushes` is the list of raw buffers flushed as thinking preview
before marker detection (each is printed after cleaning); `printed` is the
cleaned text actually printed, including the cleaned thinking part printed
at marker detection; `detectNote` is the raw thinking part isolated at
marker detection. -/
structure StreamState where
  buffer : List Char
  inAction : Bool
  inTag : Bool
  flushes : List (List Char)
  printed : List (List Char)
  detectNote : Option (List Char)
deriving DecidableEq

/-- Initial stream state: `request` resets the buffer, the action phase and
the tag flag before consuming the stream (client.py lines 110-128). -/
def initStream : StreamState :=
  { buffer := [], inAction := false, inTag := false,
    flushes := [], printed := [], detectNote := none }

/-- One iteration of the streaming loop for a content fragment (client.py
lines 130-183).  In the action phase the fragment only extends the raw
accumulation (modelled by `concatL`) and the state is untouched.  Otherwise
the fragment joins the buffer; a detected marker ends the preview after
printing the cleaned text before the marker; a buffer ending in a partial
marker is held back; any other buffer is cleaned, printed and cleared. -/
def process_chunk (st : StreamState) (content : List Char) : StreamState :=
  if st.inAction then st
  else
    let buf := st.buffer ++ content
    match detect_marker buf with
    | some mi =>
      let thinkingPart := buf.take mi.2
      let p := clean_stream_content st.inTag thinkingPart
      { st with buffer := buf, inAction := true, inTag := p.1,
                printed := if p.2 = [] then st.printed else st.printed ++ [p.2],
                detectNote := some thinkingPart }
    | none =>
      if is_potential_marker buf then { st with buffer := buf }
      else
        let p := clean_stream_content st.inTag buf
        { st with buffer := [], inTag := p.1,
                  flushes := st.flushes ++ [buf],
                  printed := if p.2 = [] then st.printed else st.printed ++ [p.2] }

/-- The whole streaming preview pass of one exchange. -/
def stream_run (frags : List (List Char)) : StreamState :=
  frags.foldl process_chunk initStream

end Client

/-!
Part 2 embeds `phone_agent/agent.py`: the `PhoneAgent` step state machine,
the retry/dedup tracker, the retry note, and the `run`/`step` entry points.
The collaborators that live outside `src/` (`phone_agent.actions`,
`phone_agent.adb`, `phone_agent.config`) are modelled as an explicit
environment of pure functions per the spec's external-interface contracts.
-/

namespace Agent

/-- `AgentConfig` (agent.py lines 16-30), restricted to the fields the
step machine reads: the step ceiling, the system prompt text and the retry
reminder threshold, with the source's defaults. -/
structure AgentConfig where
  maxSteps : Nat := 100
  systemPrompt : List Char := []
  retryReminderThreshold : Nat := 3
deriving DecidableEq

/-- A structured action, modelling the Python dict produced by the external
`parse_action` decoder: the `_metadata` discriminator plus every key that
`_format_action_target` (agent.py lines 229-273) inspects.  Absent keys are
`none`, matching `dict.get`. -/
structure PAction where
  metadata : Option (List Char)
  action : Option (List Char)
  message : Option (List Char)
  app : Option (List Char)
  element : Option (List Int)
  startPt : Option (List Int)
  endPt : Option (List Int)
  text : Option (List Char)
  duration : Option (List Char)
deriving DecidableEq

/-- `StepResult` (agent.py lines 32-40). -/
structure StepResult where
  success : Bool
  finished : Bool
  action : Option PAction
  thinking : List Char
  message : Option (List Char)
deriving DecidableEq

/-- Modelled from the spec: the `finish(message=...)` constructor of
`phone_agent.actions.handler` is absent from `src/`; per the spec it
synthesizes a structured action whose discriminator is "finish" and whose
message is the given text. -/
def finishAct (m : List Char) : PAction :=
  { metadata := some ("finish".toList), action := none, message := some m,
    app := none, element := none, startPt := none, endPt := none,
    text := none, duration := none }

/-- A conversation turn.  Python stores `{role, content}` where the content
of a user turn is a list holding an optional image part and a text part;
`hasImage` records whether the image part is present. -/
structure Msg where
  role : List Char
  text : List Char
  hasImage : Bool
deriving DecidableEq

/-- `MessageBuilder.create_system_message`. -/
def systemMsg (c : List Char) : Msg := { role := "system".toList, text := c, hasImage := false }

/-- `MessageBuilder.create_user_message`: the image part is attached when
the base64 payload is truthy. -/
def userMsg (t : List Char) (b64 : List Char) : Msg :=
  { role := "user".toList, text := t, hasImage := !b64.isEmpty }

/-- `MessageBuilder.create_assistant_message`. -/
def assistantMsg (c : List Char) : Msg :=
  { role := "assistant".toList, text := c, hasImage := false }

/-- `MessageBuilder.remove_images_from_message` applied to the last turn
(agent.py line 167): the image part is dropped, the text kept. -/
def stripImagesLast : List Msg → List Msg
  | [] => []
  | [m] => [{ m with hasImage := false }]
  | m :: rest => m :: stripImagesLast rest

/-- JSON string escaping as performed by `json.dumps` with
`ensure_ascii=False` on the characters relevant here. -/
def jsonEscapeChar (c : Char) : List Char :=
  if c = '"' then ['\\', '"']
  else if c = '\\' then ['\\', '\\']
  else if c = '\n' then ['\\', 'n']
  else if c = '\r' then ['\\', 'r']
  else if c = '\t' then ['\\', 't']
  else if c = Char.ofNat 8 then ['\\', 'b']
  else if c = Char.ofNat 12 then ['\\', 'f']
  else if c.toNat < 32 then
    '\\' :: 'u' :: '0' :: '0' :: (Nat.toDigits 16 c.toNat)
  else [c]

/-- `MessageBuilder.build_screen_info` (client.py lines 280-283) as called
with only `current_app`: `json.dumps({"current_app": app})`. -/
def build_screen_info (app : List Char) : List Char :=
  "\x7b\"current_app\": \"".toList ++ (app.map jsonEscapeChar).flatten ++ "\"\x7d".toList

/-- `RetryState`: the `_last_action_type` / `_last_action_target` /
`_retry_count` attributes of `PhoneAgent`. -/
structure RetryState where
  lastType : Option (List Char)
  lastTarget : Option (List Char)
  count : Nat
deriving DecidableEq

/-- `_reset_action_tracking` (agent.py lines 213-216). -/
def reset_action_tracking : RetryState :=
  { lastType := none, lastTarget := none, count := 0 }

/-- Python truthiness of an optional string: `None` and `""` are falsy. -/
def truthyOpt : Option (List Char) → Bool
  | none => false
  | some s => !s.isEmpty

/-- The conditional update of `_update_last_action_state` (agent.py lines
222-227) applied to an already computed signature: on a truthy type equal to
the stored type with an equal target, increment the count; otherwise store
the new signature and reset the count to 1 for a truthy type, else 0. -/
def update_retry (r : RetryState) (ty : Option (List Char)) (tg : List Char) : RetryState :=
  if truthyOpt ty = true ∧ ty = r.lastType ∧ some tg = r.lastTarget then
    { r with count := r.count + 1 }
  else
    { lastType := ty, lastTarget := some tg,
      count := if truthyOpt ty then 1 else 0 }

/-- `str.__len__`-bounded truncation `_truncate_text` (agent.py lines
296-300) with the default display length 50. -/
def truncate_text (t : List Char) : List Char :=
  if t.length ≤ 50 then t else t.take 47 ++ "...".toList

/-- The apostrophe character used by the `text='...'` target format. -/
def quoteC : Char := Char.ofNat 39

/-- `_format_action_target` (agent.py lines 229-273). -/
def format_action_target (a : PAction) : List Char :=
  if a.metadata = some ("finish".toList) then a.message.getD []
  else if ¬ a.metadata = some ("do".toList) then []
  else
    match a.action with
    | none => []
    | some nm =>
      if nm = "Launch".toList then a.app.getD []
      else if nm = "Tap".toList ∨ nm = "Double Tap".toList ∨ nm = "Long Press".toList then
        match a.element with
        | some (x :: y :: _) =>
          "(".toList ++ (toString x).toList ++ ", ".toList ++ (toString y).toList ++ ")".toList
        | _ => []
      else if nm = "Swipe".toList then
        match a.startPt, a.endPt with
        | some (x1 :: y1 :: _), some (x2 :: y2 :: _) =>
          "(".toList ++ (toString x1).toList ++ ", ".toList ++ (toString y1).toList
            ++ ") -> (".toList ++ (toString x2).toList ++ ", ".toList
            ++ (toString y2).toList ++ ")".toList
        | _, _ => []
      else if nm = "Type".toList ∨ nm = "Type_Name".toList then
        "text=".toList ++ [quoteC] ++ truncate_text (a.text.getD []) ++ [quoteC]
      else if nm = "Wait".toList then a.duration.getD []
      else if nm = "Back".toList ∨ nm = "Home".toList then "navigation".toList
      else if nm = "Take_over".toList then a.message.getD []
      else []

/-- The signature-type computation of `_update_last_action_state` line 219:
the action name for a "do" action, the discriminator otherwise. -/
def action_sig_type (a : PAction) : Option (List Char) :=
  if a.metadata = some ("do".toList) then a.action else a.metadata

/-- `_update_last_action_state` (agent.py lines 218-227). -/
def update_last_action_state (r : RetryState) (a : PAction) : RetryState :=
  update_retry r (action_sig_type a) (format_action_target a)

/-- `_build_retry_note` (agent.py lines 275-288): `None` for a falsy stored
type or a non-positive count; otherwise the attempt note, with the
escalation clause appended when the threshold is truthy and reached. -/
def escClause : List Char := "。请考虑其他策略或调用 finish 请求人工接管。".toList

/-- The constant tail of the attempt note preceding any escalation clause. -/
def noteTail : List Char := " 次，界面未变化/状态仍未达成".toList

def build_retry_note (r : RetryState) (threshold : Nat) : Option (List Char) :=
  match r.lastType with
  | none => none
  | some t =>
    if t.isEmpty ∨ r.count = 0 then none
    else
      let targetPart : List Char :=
        match r.lastTarget with
        | some tg => if tg.isEmpty then [] else ' ' :: tg
        | none => []
      let note := "已尝试 ".toList ++ t ++ targetPart ++ " 共 ".toList
        ++ (toString r.count).toList ++ noteTail
      some (if threshold ≠ 0 ∧ threshold ≤ r.count then note ++ escClause else note)

/-- `_compose_user_text` (agent.py lines 290-294). -/
def compose_user_text (threshold : Nat) (r : RetryState) (base : List Char) : List Char :=
  match build_retry_note r threshold with
  | some n => if n = [] then base else n ++ "\n\n".toList ++ base
  | none => base

/-- Python `"{}".format(x)` on an optional string: `None` renders as the
four characters `None`. -/
def pyStrOpt : Option (List Char) → List Char
  | some s => s
  | none => "None".toList

/-- Python `a or b` over optional strings: the left value when truthy,
otherwise the right value. -/
def pyOr (a b : Option (List Char)) : Option (List Char) :=
  match a with
  | some m => if m.isEmpty then b else some m
  | none => b

/-- Python `a or d` with a string default. -/
def pyOrD (a : Option (List Char)) (d : List Char) : List Char :=
  match a with
  | some m => if m.isEmpty then d else m
  | none => d

/-- Device screenshot contract (spec section 6). -/
structure Screenshot where
  base64Data : List Char
  width : Int
  height : Int
deriving DecidableEq

/-- Executor result contract (spec section 6):
`{success, shouldFinish, message}`. -/
structure ExecResult where
  success : Bool
  shouldFinish : Bool
  message : Option (List Char)
deriving DecidableEq

/-- The model gateway's structured response as consumed by the agent. -/
structure ModelResp where
  thinking : List Char
  action : List Char
  raw : List Char
deriving DecidableEq

/-- The external collaborators of the step machine (spec section 6),
modelled as pure functions.  `getScreenshot` and `getCurrentApp` receive the
current step count so that successive device snapshots may differ;
`request` receives the full conversation context; failures are `Except`
errors carrying the exception text; `parseAction` returns `none` exactly
when the decoder raises its decode error (`ValueError`). -/
structure Env where
  getScreenshot : Nat → Except (List Char) Screenshot
  getCurrentApp : Nat → Except (List Char) (List Char)
  request : List Msg → Except (List Char) ModelResp
  parseAction : List Char → Option PAction
  execute : PAction → Int → Int → Except (List Char) ExecResult

/-- The mutable per-task state of `PhoneAgent`. -/
structure AgentState where
  context : List Msg
  stepCount : Nat
  retry : RetryState
deriving DecidableEq

/-- A fresh agent (`__init__`, agent.py lines 68-72). -/
def initState : AgentState :=
  { context := [], stepCount := 0, retry := reset_action_tracking }

/-- The tail of `_execute_step` after a successful or substituted dispatch
(agent.py lines 182-211): append the assistant turn, compute the finished
flag from the dispatched action's discriminator and the executor result,
update the retry tracker, and build the `StepResult`. -/
def finishStep (st : AgentState) (resp : ModelResp) (executed : PAction)
    (result : ExecResult) : Except (List Char) (AgentState × StepResult) :=
  let st4 := { st with context := st.context ++
    [assistantMsg ("<think>".toList ++ resp.thinking ++ "</think><answer>".toList
      ++ resp.action ++ "</answer>".toList)] }
  let finished := decide (executed.metadata = some ("finish".toList)) || result.shouldFinish
  let st5 := { st4 with retry := update_last_action_state st4.retry executed }
  .ok (st5, { success := result.success, finished := finished,
              action := some executed, thinking := resp.thinking,
              message := pyOr result.message executed.message })

/-- The turn-building block of `_execute_step` (agent.py lines 113-135):
the first step appends the system turn and a user turn embedding the task
and the screen info; subsequent steps append a user turn with only the
screen info; both prepend any pending retry note and attach the screenshot
image. -/
def build_user_turn (cfg : AgentConfig) (st1 : AgentState) (currentApp : List Char)
    (shot : Screenshot) (userPrompt : Option (List Char)) (isFirst : Bool) : AgentState :=
  if isFirst then
    let ctx1 := st1.context ++ [systemMsg cfg.systemPrompt]
    let textContent := pyStrOpt userPrompt ++ "\n\n".toList ++ build_screen_info currentApp
    let textContent := compose_user_text cfg.retryReminderThreshold st1.retry textContent
    { st1 with context := ctx1 ++ [userMsg textContent shot.base64Data] }
  else
    let textContent := "** Screen Info **\n\n".toList ++ build_screen_info currentApp
    let textContent := compose_user_text cfg.retryReminderThreshold st1.retry textContent
    { st1 with context := st1.context ++ [userMsg textContent shot.base64Data] }

/-- The dispatch block of `_execute_step` (agent.py lines 169-180): execute
the decoded action; if the executor raises, substitute a synthesized finish
action carrying the exception text and re-dispatch it without a guard, so a
failure of the re-dispatch propagates. -/
def dispatch_phase (env : Env) (st3 : AgentState) (resp : ModelResp)
    (action : PAction) (shot : Screenshot) :
    Except (List Char) (AgentState × StepResult) :=
  match env.execute action shot.width shot.height with
  | .ok result => finishStep st3 resp action result
  | .error e =>
    let ea := finishAct e
    match env.execute ea shot.width shot.height with
    | .ok result => finishStep st3 resp ea result
    | .error e2 => .error e2

/-- The guarded model-call and decode block of `_execute_step` (agent.py
lines 137-167): a transport failure returns a terminal `StepResult`; a
decode failure substitutes a synthesized finish action carrying the raw
action text; then the image is stripped from the just-submitted user turn
and the dispatch block runs. -/
def model_phase (env : Env) (st2 : AgentState) (shot : Screenshot) :
    Except (List Char) (AgentState × StepResult) :=
  match env.request st2.context with
  | .error e =>
    .ok (st2, { success := false, finished := true, action := none,
                thinking := [], message := some ("Model error: ".toList ++ e) })
  | .ok resp =>
    let action :=
      match env.parseAction resp.action with
      | some a => a
      | none => finishAct resp.action
    dispatch_phase env { st2 with context := stripImagesLast st2.context } resp action shot

/-- `_execute_step` (agent.py lines 104-211).  The step count is
incremented first; the device snapshot and foreground-app queries are made
outside any handler, so their failures propagate; the remaining phases are
`build_user_turn`, `model_phase` and `dispatch_phase` above. -/
def execute_step (env : Env) (cfg : AgentConfig) (st : AgentState)
    (userPrompt : Option (List Char)) (isFirst : Bool) :
    Except (List Char) (AgentState × StepResult) :=
  let st1 : AgentState := { st with stepCount := st.stepCount + 1 }
  match env.getScreenshot st1.stepCount with
  | .error e => .error e
  | .ok shot =>
    match env.getCurrentApp st1.stepCount with
    | .error e => .error e
    | .ok currentApp =>
      model_phase env (build_user_turn cfg st1 currentApp shot userPrompt isFirst) shot

/-- `step` (agent.py lines 91-96): the task is required on a fresh context
(`ValueError` modelled as an error value); otherwise a single
`_execute_step`. -/
def stepFn (env : Env) (cfg : AgentConfig) (st : AgentState)
    (task : Option (List Char)) : Except (List Char) (AgentState × StepResult) :=
  let isFirst := st.context.isEmpty
  if isFirst && !truthyOpt task then
    .error ("Task is required for the first step".toList)
  else execute_step env cfg st task isFirst

/-- The `while self._step_count < max_steps` loop of `run` (agent.py lines
84-89), driven by explicit fuel.  Every successful `execute_step` increases
`stepCount` by exactly one (theorem `execute_step_count` below), so with
fuel `maxSteps` the zero-fuel case is only reached with
`stepCount ≥ maxSteps`, where it returns the same ceiling sentinel as the
exhausted guard; the definition therefore agrees with the unbounded while
loop. -/
def run_loop (env : Env) (cfg : AgentConfig) :
    Nat → AgentState → Except (List Char) (AgentState × List Char)
  | 0, st => .ok (st, "Max steps reached".toList)
  | fuel + 1, st =>
    if st.stepCount < cfg.maxSteps then
      match execute_step env cfg st none false with
      | .error e => .error e
      | .ok (st', r) =>
        if r.finished then .ok (st', pyOrD r.message ("Task completed".toList))
        else run_loop env cfg fuel st'
    else .ok (st, "Max steps reached".toList)

/-- `run` (agent.py lines 74-89): reset the task state, execute the first
step unconditionally, then loop while the step count is below the ceiling;
the final pair carries the terminal agent state (held in `self` in the
source) and the returned message. -/
def run (env : Env) (cfg : AgentConfig) (st : AgentState) (task : List Char) :
    Except (List Char) (AgentState × List Char) :=
  let st0 := { st with context := [], stepCount := 0, retry := reset_action_tracking }
  match execute_step env cfg st0 (some task) true with
  | .error e => .error e
  | .ok (st1, r) =>
    if r.finished then .ok (st1, pyOrD r.message ("Task completed".toList))
    else run_loop env cfg cfg.maxSteps st1

/-- Iterated feeding of one fixed action signature into the retry tracker,
the last feed outermost. -/
def feed_times (ty : Option (List Char)) (tg : List Char) : Nat → RetryState → RetryState
  | 0, r => r
  | n + 1, r => update_retry (feed_times ty tg n r) ty tg

/-- One interaction with the retry tracker: a signature classification or a
reset (`_reset_action_tracking`). -/
inductive TrackOp where
  | upd (ty : Option (List Char)) (tg : List Char)
  | reset
deriving DecidableEq

/-- The tracker state after a sequence of updates and resets starting from
a fresh tracker. -/
def apply_ops (ops : List TrackOp) : RetryState :=
  ops.foldl
    (fun st op =>
      match op with
      | .upd ty tg => update_retry st ty tg
      | .reset => reset_action_tracking)
    reset_action_tracking

/-- Whether the most recent update since the last reset carried a truthy
(non-empty, present) type; `false` when no update happened since the last
reset. -/
def last_sig_truthy (ops : List TrackOp) : Bool :=
  ops.foldl
    (fun _prev op =>
      match op with
      | .upd ty _ => truthyOpt ty
      | .reset => false)
    false

/-- Observer: the step counter held in the terminal agent state of a
completed `run`, i.e. the number of `_execute_step` calls made (each call
increments the counter by one and `run` starts from zero). -/
def stepsOf (x : Except (List Char) (AgentState × List Char)) : Nat :=
  match x with
  | .ok p => p.1.stepCount
  | .error _ => 0

/-- Observer: the message returned by a completed `run` (the exception text
when it escaped). -/
def msgOf (x : Except (List Char) (AgentState × List Char)) : List Char :=
  match x with
  | .ok p => p.2
  | .error _ => []

/-- Observer: the `StepResult` of a step that returned normally. -/
def resultOf (x : Except (List Char) (AgentState × StepResult)) : Option StepResult :=
  match x with
  | .ok p => some p.2
  | .error _ => none

/-- Observer: did the step return normally (no exception escaped)? -/
def isOkStep (x : Except (List Char) (AgentState × StepResult)) : Bool :=
  match x with
  | .ok _ => true
  | .error _ => false

/-- Does `execute_step` return normally with a non-finishing result?  Used
to phrase the "model always returns a non-finishing action" scenario. -/
def stepNotFinished (env : Env) (cfg : AgentConfig) (st : AgentState)
    (up : Option (List Char)) (f : Bool) : Bool :=
  match execute_step env cfg st up f with
  | .ok p => !p.2.finished
  | .error _ => false

/-- A concrete decoded "do" action used by the witness environments. -/
def doActC : PAction :=
  { metadata := some ("do".toList), action := some ("Tap".toList), message := none,
    app := none, element := some [100, 200], startPt := none, endPt := none,
    text := none, duration := none }

/-- A witness environment in which every collaborator succeeds and every
decoded action is a non-finishing tap. -/
def envC : Env :=
  { getScreenshot := fun _ => .ok { base64Data := "img".toList, width := 1080, height := 1920 },
    getCurrentApp := fun _ => .ok ("com.app".toList),
    request := fun _ => .ok { thinking := "th".toList, action := "do(action=Tap)".toList, raw := [] },
    parseAction := fun _ => some doActC,
    execute := fun _ _ _ => .ok { success := true, shouldFinish := false, message := none } }

/-- A counterexample environment whose device-snapshot provider raises. -/
def envBad : Env :=
  { envC with getScreenshot := fun _ => .error ("adb unavailable".toList) }

/-- A witness environment whose decoder always fails (raises `ValueError`)
on the model's action text. -/
def envDecode : Env :=
  { envC with
    request := fun _ => .ok { thinking := "th".toList, action := "garbage)(".toList, raw := [] },
    parseAction := fun _ => none }

/-- An agent state with a non-empty conversation context, for exercising
non-first steps. -/
def ctxStW : AgentState := { initState with context := [systemMsg []] }

end Agent

/-!
Theorems.  Development lemmas come first, then for each claim its theorem
together with its witness or counterexample.
-/

namespace Client

/-- When `findSub` locates `p` at index `i`, the tail of `t` from `i` starts
with `p`: this is the defining property of a first-occurrence split. -/
theorem findSub_some_drop {p : List Char} :
    ∀ {t : List Char} {i : Nat}, findSub p t = some i →
      t.drop i = p ++ t.drop (i + p.length) := by
  intro t
  induction t with
  | nil =>
    intro i h
    unfold findSub at h
    split at h
    · next hp =>
      have hp2 : p <+: ([] : List Char) := List.isPrefixOf_iff_prefix.mp hp
      have hpe : p = [] := List.prefix_nil.mp hp2
      cases h
      simp [hpe]
    · cases h
  | cons c rest ih =>
    intro i h
    unfold findSub at h
    split at h
    · next hp =>
      cases h
      have hp2 : p <+: (c :: rest) := List.isPrefixOf_iff_prefix.mp hp
      have := List.prefix_iff_eq_append.mp hp2
      simpa using this.symm
    · next hp =>
      rw [Option.map_eq_some'] at h
      obtain ⟨j, hj, rfl⟩ := h
      have := ih hj
      have hcomm : j + 1 + p.length = (j + p.length) + 1 := by omega
      rw [hcomm]
      simpa using this

/-- A buffer that fails the lookahead test ends with no nonempty strict
prefix of any action marker. -/
theorem potential_false {buf : List Char} (h : is_potential_marker buf = false) :
    ∀ m ∈ actionMarkers, ∀ k, 0 < k → k < m.length → (m.take k).isSuffixOf buf = false := by
  intro m hm k hk1 hk2
  cases hsuf : (m.take k).isSuffixOf buf with
  | false => rfl
  | true =>
    exfalso
    have : is_potential_marker buf = true := by
      simp only [is_potential_marker, List.any_eq_true]
      exact ⟨m, hm, k, List.mem_range.mpr hk2, by simp [hk1, hsuf]⟩
    rw [this] at h
    cases h

/-- Each raw preview flush added by one loop iteration is either an earlier
flush or the current buffer, flushed only after passing the lookahead
test. -/
theorem process_chunk_flushes_sub {st : StreamState} {c : List Char} {r : List Char}
    (h : r ∈ (process_chunk st c).flushes) :
    r ∈ st.flushes ∨
      (r = st.buffer ++ c ∧ is_potential_marker (st.buffer ++ c) = false) := by
  simp only [process_chunk] at h
  split at h
  · exact Or.inl h
  · split at h
    · exact Or.inl h
    · split at h
      · exact Or.inl h
      · next hpot =>
        simp only [List.mem_append, List.mem_singleton] at h
        rcases h with h | h
        · exact Or.inl h
        · exact Or.inr ⟨h, by simpa using hpot⟩

/-- The lookahead invariant is preserved by any run of the streaming
loop. -/
theorem foldl_flushes_prop (frags : List (List Char)) :
    ∀ st : StreamState,
      (∀ r ∈ st.flushes, ∀ m ∈ actionMarkers, ∀ k, 0 < k → k < m.length →
        (m.take k).isSuffixOf r = false) →
      ∀ r ∈ (frags.foldl process_chunk st).flushes, ∀ m ∈ actionMarkers,
        ∀ k, 0 < k → k < m.length → (m.take k).isSuffixOf r = false := by
  induction frags with
  | nil => intro st h; exact h
  | cons c cs ih =>
    intro st h
    refine ih (process_chunk st c) ?_
    intro r hr
    rcases process_chunk_flushes_sub hr with h1 | ⟨rfl, hpot⟩
    · exact h r h1
    · exact potential_false hpot

/-- In the action phase a fragment leaves the stream state untouched. -/
theorem process_chunk_inaction {st : StreamState} (c : List Char)
    (h : st.inAction = true) : process_chunk st c = st := by
  simp [process_chunk, h]

/-- Claim C7: during one streaming exchange, the live thinking preview
never flushes a buffer that ends with a nonempty strict prefix of either
action marker (`finish(message=` or `do(action=`), so a marker split across
consecutive fragments never has its partial text emitted — such a suffix is
held back until disambiguated; and once a marker has been detected, the
stream state (and with it the emitted preview) never changes again for that
exchange. -/
theorem c7_streaming_holdback :
    (∀ frags r m k, r ∈ (stream_run frags).flushes → m ∈ actionMarkers →
        0 < k → k < m.length → (m.take k).isSuffixOf r = false)
    ∧ (∀ (st : StreamState) (frags : List (List Char)), st.inAction = true →
        frags.foldl process_chunk st = st) := by
  constructor
  · intro frags r m k hr hm hk1 hk2
    exact foldl_flushes_prop frags initStream (by simp [initStream]) r hr m hm k hk1 hk2
  · intro st frags h
    induction frags with
    | nil => rfl
    | cons c cs ih =>
      show cs.foldl process_chunk (process_chunk st c) = st
      rw [process_chunk_inaction c h]
      exact ih

/-- Witness for C7: a stream whose marker is split over two fragments
flushes only the text before the partial marker, and a detected exchange
ignores further fragments. -/
theorem c7_witness :
    ((finMark.take 3).isSuffixOf ("hello ".toList) = false)
    ∧ (["on=1)".toList].foldl process_chunk
        { buffer := [], inAction := true, inTag := false,
          flushes := [], printed := [], detectNote := none }
        = { buffer := [], inAction := true, inTag := false,
            flushes := [], printed := [], detectNote := none }) := by
  constructor
  · exact c7_streaming_holdback.1
      ["hello ".toList, "do(acti".toList, "on=1)".toList]
      ("hello ".toList) finMark 3 (by decide) (by decide) (by decide) (by decide)
  · exact c7_streaming_holdback.2 _ _ rfl

/-- Claim C1, amended: on a normalized text containing `<tool_call>`, the
parser returns as thinking the `<think_text>`-enclosed substring after
stripping and whitespace collapsing (not the exact substring), and as
action the stripped `<tool_call>`-enclosed substring — or, when that strip
is empty, the stripped remainder after `<tool_call>`; absent closing tags
are already tolerated by `extract_between`; and the result depends only on
the concatenation of the streamed fragments. -/
theorem c1_tag_extraction (t : List Char) (pos : Nat)
    (h : findSub tcOpenL (normalize_xmlish_tags t) = some pos) :
    (parse_response t).1
      = pyStrip (collapse_ws (pyStrip
          (extract_between (normalize_xmlish_tags t) thinkOpenL thinkCloseL)))
    ∧ ((parse_response t).2
        = pyStrip (extract_between (normalize_xmlish_tags t) tcOpenL tcCloseL)
      ∨ (pyStrip (extract_between (normalize_xmlish_tags t) tcOpenL tcCloseL) = []
         ∧ (parse_response t).2
           = pyStrip ((normalize_xmlish_tags t).drop (pos + tcOpenL.length))))
    ∧ (∀ frags, concatL frags = t → parse_stream frags = parse_response t) := by
  refine ⟨?_, ?_, ?_⟩
  · simp only [parse_response]
    rw [h]
  · by_cases he : pyStrip (extract_between (normalize_xmlish_tags t) tcOpenL tcCloseL) = []
    · refine Or.inr ⟨he, ?_⟩
      simp only [parse_response]
      rw [h]
      simp [he]
    · refine Or.inl ?_
      simp only [parse_response]
      rw [h]
      simp [he]
  · intro frags hf
    simp [parse_stream, hf]

/-- Witness for C1: a complete tagged response, also parsed from a chunking
that splits the `do(action=` text across fragments. -/
theorem c1_witness :
    ((parse_response "<think_text>ok</think_text><tool_call>do(action=Tap)</tool_call>".toList).1
      = pyStrip (collapse_ws (pyStrip (extract_between
          (normalize_xmlish_tags
            "<think_text>ok</think_text><tool_call>do(action=Tap)</tool_call>".toList)
          thinkOpenL thinkCloseL))))
    ∧ (parse_stream
        ["<think_text>ok</think_text><tool_call>do(act".toList, "ion=Tap)</tool_call>".toList]
        = parse_response
            "<think_text>ok</think_text><tool_call>do(action=Tap)</tool_call>".toList) := by
  constructor
  · exact (c1_tag_extraction _ 27 (by decide)).1
  · exact (c1_tag_extraction _ 27 (by decide)).2.2 _ (by decide)

/-- Counterexample to C1 as stated: for the enclosed substring ` a ` the
parser does not return the exact substring — the returned thinking is
whitespace-stripped. -/
theorem c1_counterexample :
    (parse_response "<think_text> a </think_text><tool_call>x</tool_call>".toList).1
      ≠ extract_between
          (normalize_xmlish_tags "<think_text> a </think_text><tool_call>x</tool_call>".toList)
          thinkOpenL thinkCloseL := by decide

/-- Claim C2, amended: without a `<tool_call>` marker the parser checks the
`finish(message=` marker first and splits at its first occurrence even when
`do(action=` occurs earlier; only when the finish marker is absent does it
split at the first `do(action=`; thinking is the stripped prefix and action
is everything from the marker onward; with neither marker it returns empty
thinking and the stripped entire text; the parse is a total function, so it
never raises. -/
theorem c2_fallback_split (t : List Char)
    (h : findSub tcOpenL (normalize_xmlish_tags t) = none) :
    (∀ i, findSub finMark t = some i →
        parse_response t = (pyStrip (t.take i), t.drop i))
    ∧ (findSub finMark t = none →
        ∀ i, findSub doMark t = some i →
          parse_response t = (pyStrip (t.take i), t.drop i))
    ∧ (findSub finMark t = none → findSub doMark t = none →
        parse_response t = ([], pyStrip t)) := by
  refine ⟨?_, ?_, ?_⟩
  · intro i hi
    simp only [parse_response, splitOnce]
    rw [h, hi]
    rw [findSub_some_drop hi]
  · intro hfin i hi
    simp only [parse_response, splitOnce]
    rw [h, hfin, hi]
    rw [findSub_some_drop hi]
  · intro hfin hdo
    simp only [parse_response, splitOnce]
    rw [h, hfin, hdo]

/-- Witness for C2: a legacy finish reply splits at the marker with the
prefix stripped as thinking. -/
theorem c2_witness :
    parse_response "think finish(message=done)".toList
      = (pyStrip ("think finish(message=done)".toList.take 6),
         "think finish(message=done)".toList.drop 6) :=
  (c2_fallback_split _ (by decide)).1 6 (by decide)

/-- Counterexample to C2 as stated: on a text whose first marker occurrence
is `do(action=` at index 0 but which also contains `finish(message=`, the
parser does not return empty thinking with the whole text as action — it
splits at the later finish marker. -/
theorem c2_counterexample :
    parse_response "do(action=a finish(message=b".toList
      ≠ (([] : List Char), "do(action=a finish(message=b".toList) := by decide

end Client

namespace Agent

/-- The result-assembly tail of a step keeps the step counter unchanged. -/
theorem finishStep_count (st : AgentState) (resp : ModelResp) (a : PAction)
    (res : ExecResult) (st' : AgentState) (r : StepResult)
    (h : finishStep st resp a res = .ok (st', r)) : st'.stepCount = st.stepCount := by
  simp only [finishStep] at h
  cases h
  rfl

/-- Every step that returns normally increments the step counter by exactly
one; this is the invariant that justifies driving the `run` loop by the
fuel `maxSteps`. -/
theorem execute_step_count (env : Env) (cfg : AgentConfig) (st : AgentState)
    (up : Option (List Char)) (f : Bool) (st' : AgentState) (r : StepResult)
    (h : execute_step env cfg st up f = .ok (st', r)) :
    st'.stepCount = st.stepCount + 1 := by
  simp only [execute_step, model_phase, dispatch_phase, finishStep, build_user_turn] at h
  repeat' split at h
  all_goals cases h
  all_goals cases f <;> rfl

/-- When re-dispatch of a synthesized finish action cannot fail, the
dispatch block returns normally. -/
theorem dispatch_phase_ok (env : Env) (st3 : AgentState) (resp : ModelResp)
    (action : PAction) (shot : Screenshot)
    (hfin : ∀ m w h, ∃ res, env.execute (finishAct m) w h = .ok res) :
    ∃ out, dispatch_phase env st3 resp action shot = .ok out := by
  cases hex : env.execute action shot.width shot.height with
  | ok result =>
    unfold dispatch_phase
    rw [hex]
    exact ⟨_, rfl⟩
  | error e =>
    obtain ⟨res, hres⟩ := hfin e shot.width shot.height
    have step1 : dispatch_phase env st3 resp action shot
        = match env.execute (finishAct e) shot.width shot.height with
          | .ok result => finishStep st3 resp (finishAct e) result
          | .error e2 => Except.error e2 := by
      unfold dispatch_phase
      rw [hex]
    rw [step1, hres]
    exact ⟨_, rfl⟩

/-- When re-dispatch of a synthesized finish action cannot fail, the model
and dispatch phases return normally whatever the transport, decoder and
first dispatch do. -/
theorem model_phase_ok (env : Env) (st2 : AgentState) (shot : Screenshot)
    (hfin : ∀ m w h, ∃ res, env.execute (finishAct m) w h = .ok res) :
    ∃ out, model_phase env st2 shot = .ok out := by
  unfold model_phase
  cases hreq : env.request st2.context with
  | error e => exact ⟨_, rfl⟩
  | ok resp =>
    exact dispatch_phase_ok env _ resp _ shot hfin

/-- Claim C3, amended: errors from the model transport, from the action
decoder and from the first executor dispatch are caught inside the step and
converted into a returned `StepResult` (possibly through the substituted
finish action); but the device snapshot and foreground-app queries run
outside every handler and the substituted finish action is re-dispatched
without a guard, so those errors propagate out of the step.  Under the
hypotheses that the snapshot and app queries succeed and that dispatching a
synthesized finish action succeeds, no exception escapes the step. -/
theorem c3_step_error_containment (env : Env) (cfg : AgentConfig) (st : AgentState)
    (up : Option (List Char)) (f : Bool) (shot : Screenshot) (app : List Char)
    (hs : env.getScreenshot (st.stepCount + 1) = .ok shot)
    (ha : env.getCurrentApp (st.stepCount + 1) = .ok app)
    (hfin : ∀ m w h, ∃ res, env.execute (finishAct m) w h = .ok res) :
    ∃ out, execute_step env cfg st up f = .ok out := by
  simp only [execute_step]
  rw [hs, ha]
  exact model_phase_ok env _ shot hfin

/-- Witness for C3: with healthy collaborators a step returns normally. -/
theorem c3_witness :
    isOkStep (execute_step envC {} initState none false) = true := by
  obtain ⟨out, h⟩ := c3_step_error_containment envC {} initState none false
    { base64Data := "img".toList, width := 1080, height := 1920 } ("com.app".toList)
    rfl rfl (fun m w h => ⟨{ success := true, shouldFinish := false, message := none }, rfl⟩)
  rw [h]
  rfl

/-- Counterexample to C3 as stated: an error raised by the device snapshot
provider propagates out of the step instead of being converted into a
terminal `StepResult`. -/
theorem c3_counterexample :
    execute_step envBad {} initState (some ("t".toList)) true
      = .error ("adb unavailable".toList) := rfl

/-- The `run` loop with enough fuel and a never-finishing, never-failing
step ends exactly at the ceiling with the sentinel message. -/
theorem run_loop_ceiling (env : Env) (cfg : AgentConfig)
    (h2 : ∀ st up f, stepNotFinished env cfg st up f = true) :
    ∀ (fuel : Nat) (st : AgentState), st.stepCount ≤ cfg.maxSteps →
      cfg.maxSteps ≤ st.stepCount + fuel →
      ∃ st', run_loop env cfg fuel st = .ok (st', "Max steps reached".toList)
        ∧ st'.stepCount = cfg.maxSteps := by
  intro fuel
  induction fuel with
  | zero =>
    intro st hle hge
    exact ⟨st, rfl, le_antisymm hle (by simpa using hge)⟩
  | succ n ih =>
    intro st hle hge
    by_cases hlt : st.stepCount < cfg.maxSteps
    · have hnf := h2 st none false
      unfold stepNotFinished at hnf
      cases hstep : execute_step env cfg st none false with
      | error e => rw [hstep] at hnf; cases hnf
      | ok p =>
        obtain ⟨stN, r⟩ := p
        rw [hstep] at hnf
        simp only [Bool.not_eq_true'] at hnf
        have hc : stN.stepCount = st.stepCount + 1 :=
          execute_step_count env cfg st none false stN r hstep
        obtain ⟨stF, hF, hcF⟩ := ih stN (by omega) (by omega)
        refine ⟨stF, ?_, hcF⟩
        simp only [run_loop]
        rw [if_pos hlt, hstep]
        simp [hnf, hF]
    · have heq : st.stepCount = cfg.maxSteps := le_antisymm hle (not_lt.mp hlt)
      exact ⟨st, by simp [run_loop, hlt], heq⟩

/-- Claim C5, amended: when no step ever reports finished (and no step
fails), `run` with a step ceiling of at least 1 executes exactly
`maxSteps` steps and returns the fixed ceiling sentinel; the first step
however runs before the ceiling check, so a ceiling of 0 still executes one
step (see the counterexample). -/
theorem c5_run_ceiling (env : Env) (cfg : AgentConfig) (st : AgentState) (task : List Char)
    (h1 : 1 ≤ cfg.maxSteps)
    (h2 : ∀ s up f, stepNotFinished env cfg s up f = true) :
    ∃ st', run env cfg st task = .ok (st', "Max steps reached".toList)
      ∧ st'.stepCount = cfg.maxSteps := by
  have hnf := h2 { st with context := [], stepCount := 0, retry := reset_action_tracking }
    (some task) true
  unfold stepNotFinished at hnf
  cases hstep : execute_step env cfg
      { st with context := [], stepCount := 0, retry := reset_action_tracking }
      (some task) true with
  | error e => rw [hstep] at hnf; cases hnf
  | ok p =>
    obtain ⟨st1, r⟩ := p
    rw [hstep] at hnf
    simp only [Bool.not_eq_true'] at hnf
    have hc : st1.stepCount = 1 := by
      simpa using execute_step_count env cfg _ (some task) true st1 r hstep
    obtain ⟨stF, hF, hcF⟩ := run_loop_ceiling env cfg h2 cfg.maxSteps st1
      (by omega) (by omega)
    refine ⟨stF, ?_, hcF⟩
    simp only [run]
    rw [hstep]
    simp [hnf, hF]

/-- Witness for C5: ceiling 2 and an always-non-finishing model give the
sentinel after exactly 2 steps. -/
theorem c5_witness :
    msgOf (run envC { maxSteps := 2 } initState ("t".toList)) = "Max steps reached".toList
    ∧ stepsOf (run envC { maxSteps := 2 } initState ("t".toList)) = 2 := by
  obtain ⟨stF, hF, hc⟩ := c5_run_ceiling envC { maxSteps := 2 } initState ("t".toList)
    (by decide) (fun s up f => by cases f <;> rfl)
  rw [show run envC { maxSteps := 2 } initState ("t".toList)
      = .ok (stF, "Max steps reached".toList) from hF]
  exact ⟨rfl, hc⟩

/-- Counterexample to C5 as stated: with ceiling 0 the code still executes
one step (the first step runs before the ceiling check), not 0 steps. -/
theorem c5_counterexample :
    stepsOf (run envC { maxSteps := 0 } initState ("t".toList)) = 1
    ∧ ¬ stepsOf (run envC { maxSteps := 0 } initState ("t".toList)) = 0
    ∧ msgOf (run envC { maxSteps := 0 } initState ("t".toList)) = "Max steps reached".toList := by
  refine ⟨by decide, by decide, by decide⟩

/-- Claim C6: when the decoder fails on the returned action text (and the
device and transport collaborators behave, and the executor accepts the
substituted action), the step substitutes a synthesized finish action whose
message is the raw offending action text, and the returned `StepResult` is
finished and carries that action; no exception propagates. -/
theorem c6_decode_failure_finish (env : Env) (cfg : AgentConfig) (st : AgentState)
    (up : Option (List Char)) (f : Bool) (shot : Screenshot) (app : List Char)
    (resp : ModelResp) (er : ExecResult)
    (hs : ∀ n, env.getScreenshot n = .ok shot)
    (ha : ∀ n, env.getCurrentApp n = .ok app)
    (hreq : ∀ ctx, env.request ctx = .ok resp)
    (hparse : env.parseAction resp.action = none)
    (hexec : env.execute (finishAct resp.action) shot.width shot.height = .ok er) :
    ∃ st', execute_step env cfg st up f = .ok (st',
      { success := er.success, finished := true,
        action := some (finishAct resp.action), thinking := resp.thinking,
        message := pyOr er.message (some resp.action) }) := by
  simp only [execute_step, model_phase, dispatch_phase, hs, ha, hreq, hparse, hexec]
  exact ⟨_, rfl⟩

/-- Witness for C6: a malformed action string ends the step with a
synthesized finish action carrying the raw text. -/
theorem c6_witness :
    resultOf (execute_step envDecode {} initState none false)
      = some { success := true, finished := true,
               action := some (finishAct ("garbage)(".toList)),
               thinking := "th".toList,
               message := some ("garbage)(".toList) } := by
  obtain ⟨st', h⟩ := c6_decode_failure_finish envDecode {} initState none false
    { base64Data := "img".toList, width := 1080, height := 1920 } ("com.app".toList)
    { thinking := "th".toList, action := "garbage)(".toList, raw := [] }
    { success := true, shouldFinish := false, message := none }
    (fun _ => rfl) (fun _ => rfl) (fun _ => rfl) rfl rfl
  rw [h]
  rfl

/-- Claim C10: a `step` call on a non-empty conversation context ignores
its task argument entirely — the produced state and `StepResult` are
identical for every task value. -/
theorem c10_step_ignores_task (env : Env) (cfg : AgentConfig) (st : AgentState)
    (t1 t2 : Option (List Char)) (h : ¬ st.context = []) :
    stepFn env cfg st t1 = stepFn env cfg st t2 := by
  have he : st.context.isEmpty = false := by
    cases hc : st.context with
    | nil => exact absurd hc h
    | cons a l => rfl
  simp only [stepFn]
  rw [he]
  rfl

/-- Witness for C10: on a state with a non-empty context, a concrete task
and no task give the same step outcome. -/
theorem c10_witness :
    stepFn envC {} ctxStW (some ("a".toList)) = stepFn envC {} ctxStW none :=
  c10_step_ignores_task envC {} ctxStW (some ("a".toList)) none (by decide)

/-- Feeding one truthy signature repeatedly from a fresh tracker stores the
signature and counts the feeds. -/
theorem feed_times_state (ty : Option (List Char)) (tg : List Char)
    (hty : truthyOpt ty = true) :
    ∀ n : Nat, feed_times ty tg (n + 1) reset_action_tracking
      = { lastType := ty, lastTarget := some tg, count := n + 1 } := by
  intro n
  induction n with
  | zero =>
    cases ty with
    | none => cases hty
    | some s =>
      simp only [feed_times, update_retry, reset_action_tracking]
      rw [if_neg (by rintro ⟨-, h2, -⟩; cases h2)]
      simp [hty]
  | succ m ih =>
    show update_retry (feed_times ty tg (m + 1) reset_action_tracking) ty tg = _
    rw [ih]
    simp [update_retry, hty]

/-- Claim C4, amended: feeding the same signature N consecutive times from
a reset tracker yields count N when the signature's type is non-empty; a
feed whose type is empty or absent always resets the count to 0, even when
it repeats the previous signature; and any feed that differs from the
stored signature replaces the stored type and target and resets the count
to 1 for a truthy type, else 0. -/
theorem c4_retry_counter :
    (∀ (ty : Option (List Char)) (tg : List Char) (n : Nat),
       truthyOpt ty = true → 1 ≤ n →
       (feed_times ty tg n reset_action_tracking).count = n)
    ∧ (∀ (r : RetryState) (ty : Option (List Char)) (tg : List Char),
        truthyOpt ty = false →
        update_retry r ty tg = { lastType := ty, lastTarget := some tg, count := 0 })
    ∧ (∀ (r : RetryState) (ty : Option (List Char)) (tg : List Char),
        ¬ (ty = r.lastType ∧ some tg = r.lastTarget) →
        update_retry r ty tg
          = { lastType := ty, lastTarget := some tg,
              count := if truthyOpt ty then 1 else 0 }) := by
  refine ⟨?_, ?_, ?_⟩
  · intro ty tg n hty hn
    obtain ⟨m, rfl⟩ : ∃ m, n = m + 1 := ⟨n - 1, by omega⟩
    rw [feed_times_state ty tg hty m]
  · intro r ty tg hty
    simp only [update_retry]
    rw [if_neg, if_neg]
    · rw [hty]; rintro h; cases h
    · rintro ⟨h1, -⟩
      rw [hty] at h1
      cases h1
  · intro r ty tg hne
    simp only [update_retry]
    rw [if_neg]
    rintro ⟨-, h2, h3⟩
    exact hne ⟨h2, h3⟩

/-- Witness for C4: three identical taps count to 3; an empty type resets
to 0; a changed signature resets to 1. -/
theorem c4_witness :
    ((feed_times (some ("Tap".toList)) ("(1, 2)".toList) 3 reset_action_tracking).count = 3)
    ∧ (update_retry reset_action_tracking (some []) ("x".toList)
        = { lastType := some [], lastTarget := some ("x".toList), count := 0 })
    ∧ (update_retry { lastType := some ("Tap".toList), lastTarget := some ("x".toList), count := 5 }
        (some ("Swipe".toList)) ("y".toList)
        = { lastType := some ("Swipe".toList), lastTarget := some ("y".toList), count := 1 }) := by
  refine ⟨?_, ?_, ?_⟩
  · exact c4_retry_counter.1 (some ("Tap".toList)) ("(1, 2)".toList) 3 (by decide) (by decide)
  · exact c4_retry_counter.2.1 reset_action_tracking (some []) ("x".toList) (by decide)
  · have := c4_retry_counter.2.2
      { lastType := some ("Tap".toList), lastTarget := some ("x".toList), count := 5 }
      (some ("Swipe".toList)) ("y".toList) (by decide)
    simpa using this

/-- Counterexample to C4 as stated: feeding the same empty-typed signature
twice from a reset tracker yields count 0, not 2. -/
theorem c4_counterexample :
    (feed_times (some ([] : List Char)) ("x".toList) 2 reset_action_tracking).count = 0
    ∧ ¬ (feed_times (some ([] : List Char)) ("x".toList) 2 reset_action_tracking).count = 2 := by
  exact ⟨by decide, by decide⟩

/-- One tracker update zeroes the count exactly when the fed type is empty
or absent. -/
theorem update_retry_count_zero (r : RetryState) (ty : Option (List Char)) (tg : List Char) :
    ((update_retry r ty tg).count = 0 ↔ truthyOpt ty = false) := by
  simp only [update_retry]
  split
  · next hcond =>
    simp [hcond.1]
  · next hcond =>
    cases hty : truthyOpt ty <;> simp [hty]

/-- Claim C9, amended: in every state reachable by updates and resets, the
retry count is 0 if and only if either no action has been classified since
the last reset or the most recently classified action had an empty or
absent type; equivalently, the count is at least 1 exactly when the last
classification since the last reset had a truthy type. -/
theorem c9_count_zero_iff (ops : List TrackOp) :
    (apply_ops ops).count = 0 ↔ last_sig_truthy ops = false := by
  suffices h : ∀ (ops : List TrackOp) (st : RetryState) (b : Bool),
      (st.count = 0 ↔ b = false) →
      ((ops.foldl
          (fun st op =>
            match op with
            | .upd ty tg => update_retry st ty tg
            | .reset => reset_action_tracking) st).count = 0
        ↔ (ops.foldl
            (fun _prev op =>
              match op with
              | .upd ty _ => truthyOpt ty
              | .reset => false) b) = false) by
    exact h ops reset_action_tracking false (by simp [reset_action_tracking])
  intro ops
  induction ops with
  | nil => intro st b h; exact h
  | cons op rest ih =>
    intro st b h
    cases op with
    | upd ty tg =>
      exact ih (update_retry st ty tg) (truthyOpt ty) (update_retry_count_zero st ty tg)
    | reset =>
      exact ih reset_action_tracking false (by simp [reset_action_tracking])

/-- Counterexample to C9 as stated: after classifying a tap and then an
empty-typed action (two classifications since the last reset), the count is
0, although the claim requires at least 1 in every reachable state with a
classification. -/
theorem c9_counterexample :
    (apply_ops [TrackOp.upd (some ("Tap".toList)) ("(1, 2)".toList),
                TrackOp.upd (some []) []]).count = 0
    ∧ ¬ [TrackOp.upd (some ("Tap".toList)) ("(1, 2)".toList),
         TrackOp.upd (some []) []] = ([] : List TrackOp) := by
  exact ⟨by decide, by decide⟩

/-- The escalation clause is never a suffix of a note that ends with the
constant attempt-note tail, because their final characters differ. -/
theorem esc_not_suffix (l : List Char) :
    escClause.isSuffixOf (l ++ noteTail) = false := by
  cases hsuf : escClause.isSuffixOf (l ++ noteTail) with
  | false => rfl
  | true =>
    exfalso
    have h : escClause <:+ (l ++ noteTail) := List.isSuffixOf_iff_suffix.mp hsuf
    obtain ⟨p, hp⟩ := h
    have h1 : (p ++ escClause).getLast? = (l ++ noteTail).getLast? := by rw [hp]
    rw [List.getLast?_append, List.getLast?_append] at h1
    have e1 : escClause.getLast? = some '。' := by decide
    have e2 : noteTail.getLast? = some '成' := by decide
    rw [e1, e2] at h1
    simp [Option.or] at h1

/-- Claim C8: the retry-reminder threshold defaults to 3, and with that
default the rendered retry note ends with the escalation clause exactly
when the count is at least 3 — for counts 1 and 2 the clause is absent. -/
theorem c8_retry_note_threshold :
    (({} : AgentConfig).retryReminderThreshold = 3)
    ∧ (∀ (ty : List Char) (tg : Option (List Char)) (cnt : Nat),
        ¬ ty = [] → 1 ≤ cnt →
        ((cnt < 3 →
          escClause.isSuffixOf
            ((build_retry_note { lastType := some ty, lastTarget := tg, count := cnt } 3).getD [])
            = false)
         ∧ (3 ≤ cnt →
          escClause.isSuffixOf
            ((build_retry_note { lastType := some ty, lastTarget := tg, count := cnt } 3).getD [])
            = true))) := by
  constructor
  · rfl
  · intro ty tg cnt hty hcnt
    have hne : ¬ (ty.isEmpty = true ∨ cnt = 0) := by
      rintro (h1 | h2)
      · exact hty (List.isEmpty_iff.mp h1)
      · omega
    constructor
    · intro h3
      simp only [build_retry_note]
      rw [if_neg hne, if_neg (by rintro ⟨-, hge⟩; omega)]
      simp only [Option.getD_some]
      have := esc_not_suffix ("已尝试 ".toList ++ ty
        ++ (match tg with
            | some tgv => if tgv.isEmpty then [] else ' ' :: tgv
            | none => []) ++ " 共 ".toList ++ (toString cnt).toList)
      simpa [List.append_assoc] using this
    · intro h3
      simp only [build_retry_note]
      rw [if_neg hne, if_pos ⟨by decide, h3⟩]
      simp only [Option.getD_some]
      exact List.isSuffixOf_iff_suffix.mpr (List.suffix_append _ _)

/-- Witness for C8: at count 2 the note lacks the escalation clause, at
count 3 it carries it. -/
theorem c8_witness :
    (escClause.isSuffixOf
      ((build_retry_note
          { lastType := some ("Tap".toList), lastTarget := some ("(1, 2)".toList), count := 2 } 3).getD [])
      = false)
    ∧ (escClause.isSuffixOf
        ((build_retry_note
            { lastType := some ("Tap".toList), lastTarget := some ("(1, 2)".toList), count := 3 } 3).getD [])
        = true) := by
  constructor
  · exact (c8_retry_note_threshold.2 ("Tap".toList) (some ("(1, 2)".toList)) 2
      (by decide) (by decide)).1 (by decide)
  · exact (c8_retry_note_threshold.2 ("Tap".toList) (some ("(1, 2)".toList)) 3
      (by decide) (by decide)).2 (by decide)

end Agent
